import Mathlib

/-!
Shallow embedding of the job-orchestration layer of a chat download bot
(src/app/config.py, src/app/state.py, src/app/downloader.py,
src/app/handlers.py).  Python dicts / OrderedDicts are modelled as
association lists kept in insertion order (front = oldest entry), wall-clock
floats as natural-number or rational timestamps, and the blocking I/O
performed by the extraction engine as explicit environment records.
-/

namespace YtBot

/-! ### Association-list helpers (model of Python dict operations) -/

/-- Keys of an association list, in order. -/
def keysOf {κ β : Type} (l : List (κ × β)) : List κ := l.map Prod.fst

/-- First-match lookup (Python `d.get(k)` on a dict with unique keys). -/
def alookup {κ β : Type} [DecidableEq κ] : List (κ × β) → κ → Option β
  | [], _ => none
  | (k, v) :: rest, k0 => if k = k0 then some v else alookup rest k0

/-- Remove every binding of a key (Python `d.pop(k, None)`). -/
def aerase {κ β : Type} [DecidableEq κ] (l : List (κ × β)) (k0 : κ) : List (κ × β) :=
  l.filter (fun p => p.1 ≠ k0)

/-- Update in place, or append when absent (Python `d[k] = v`). -/
def aset {κ β : Type} [DecidableEq κ] : List (κ × β) → κ → β → List (κ × β)
  | [], k0, v => [(k0, v)]
  | (k, w) :: rest, k0, v =>
      if k = k0 then (k0, v) :: rest else (k, w) :: aset rest k0 v

/-! ### src/app/downloader.py — metadata ("probe") expiring cache

`_metadata_cache` is an `OrderedDict` mapping url to `(ts, info, err)`;
`_metadata_cache_get` / `_metadata_cache_set` guard it with a lock (the lock
makes each operation atomic, so each is modelled as one pure transition).
The extracted metadata dict is opaque here (type parameter `α`). -/

/-- One cache entry: capture timestamp, extracted info (or none), error text. -/
abbrev MetadataEntry (α : Type) := Nat × Option α × Option String

/-- The ordered map, front = least recently used / oldest. -/
abbrev MetadataCache (α : Type) := List (String × MetadataEntry α)

/-- Model of `_metadata_cache_get` (downloader.py lines 67-81): disabled when
the ttl is 0; a hit past the ttl is popped and reported as a miss; a live hit
is moved to the most-recently-used end (`move_to_end`) and returned. -/
def metadata_cache_get {α : Type} (ttl now : Nat) (c : MetadataCache α)
    (url : String) : Option (Option α × Option String) × MetadataCache α :=
  if ttl = 0 then (none, c)
  else
    match alookup c url with
    | none => (none, c)
    | some (ts, info, err) =>
        if ttl < now - ts then (none, aerase c url)
        else (some (info, err), aerase c url ++ [(url, (ts, info, err))])

/-- Model of `_metadata_cache_set` (downloader.py lines 83-91): disabled when
the ttl is 0; writes the entry at the most-recently-used end (assignment plus
`move_to_end`), then pops from the oldest end while the size bound is
exceeded. -/
def metadata_cache_set {α : Type} (ttl size now : Nat) (c : MetadataCache α)
    (url : String) (info : Option α) (err : Option String) : MetadataCache α :=
  if ttl = 0 then c
  else
    let c1 := aerase c url ++ [(url, (now, info, err))]
    c1.drop (c1.length - size)

/-- Folding `_metadata_cache_set` over a sequence of urls. -/
def metadata_insert_all {α : Type} (ttl size now : Nat) (c : MetadataCache α)
    (urls : List String) (info : Option α) (err : Option String) : MetadataCache α :=
  urls.foldl (fun c u => metadata_cache_set ttl size now c u info err) c

/-! ### src/app/downloader.py — concurrency limiter

`_run_blocking_with_limit` (lines 94-102) is `async with semaphore: await
loop.run_in_executor(pool, fn)`.  `async with` acquires the
`asyncio.Semaphore` before the body and releases it when the body returns or
raises.  The transition system below models one pool: `avail` is the
semaphore counter, a task is `running` exactly while its blocking call is
executing, and both `finish_ok` and `finish_raised` release the slot, which
is precisely the guaranteed-release semantics of `async with`. -/

/-- Lifecycle of one submitted call. -/
inductive TaskPhase
  | waiting
  | running
  | done_ok
  | done_raised
deriving DecidableEq, Repr

/-- Pool state: semaphore counter plus the phase of every submitted call. -/
structure SemState where
  avail : Nat
  tasks : List TaskPhase
deriving DecidableEq, Repr

/-- Transition labels: which call starts or finishes (and how). -/
inductive SemLabel
  | start (i : Nat)
  | finish_ok (i : Nat)
  | finish_raised (i : Nat)

/-- Small-step semantics of `_run_blocking_with_limit` over one semaphore:
starting consumes a slot and needs one free; finishing — normally or by an
exception propagating out of the blocking function — releases the slot. -/
inductive SemStep : SemLabel → SemState → SemState → Prop
  | start (i a : Nat) (ts : List TaskPhase) :
      ts[i]? = some .waiting →
      SemStep (.start i) ⟨a + 1, ts⟩ ⟨a, ts.set i .running⟩
  | finish_ok (i a : Nat) (ts : List TaskPhase) :
      ts[i]? = some .running →
      SemStep (.finish_ok i) ⟨a, ts⟩ ⟨a + 1, ts.set i .done_ok⟩
  | finish_raised (i a : Nat) (ts : List TaskPhase) :
      ts[i]? = some .running →
      SemStep (.finish_raised i) ⟨a, ts⟩ ⟨a + 1, ts.set i .done_raised⟩

/-- Initial state: a fresh `asyncio.Semaphore(K)` and `n` submitted calls,
none started (downloader.py lines 59-60 build the probe and download pools
this way). -/
def sem_init (K n : Nat) : SemState := ⟨K, List.replicate n .waiting⟩

/-- States reachable from the initial pool state. -/
inductive SemReach (K n : Nat) : SemState → Prop
  | init : SemReach K n (sem_init K n)
  | step (lbl : SemLabel) (s s2 : SemState) :
      SemReach K n s → SemStep lbl s s2 → SemReach K n s2

/-- Number of calls whose blocking function is executing right now. -/
def running_count (ts : List TaskPhase) : Nat :=
  ts.countP (fun p => p = .running)

/-! ### src/app/downloader.py — download results and `_download_with_selector`

`DownloadResult` keeps the fields the orchestration layer reads; the
remaining metadata fields (ext, duration, thumbnail, webpage_url) are carried
along in the source but never branched on by the delivery logic. -/

/-- Model of the `DownloadResult` dataclass (downloader.py lines 105-117),
restricted to the fields the delivery pipeline inspects. -/
structure DownloadResult where
  ok : Bool
  filepath : Option String
  title : Option String
  filesize : Option Nat
  direct_url : Option String
  kind : Option String
  error : Option String
deriving DecidableEq, Repr

/-- Oracle for one `_download_with_selector` call: whether the yt-dlp
extraction raises, and the data each exit path would report. -/
structure SelectorEnv where
  raises : Bool
  error_msg : String
  probe_title : Option String
  probe_direct_url : Option String
  probe_kind : Option String
  found_filepath : Option String
  found_size : Option Nat
  found_title : Option String
  found_kind : Option String
deriving Repr

/-- Result of `_download_with_selector` together with whether the function
removed the `tempfile.mkdtemp` directory it created. -/
structure SelectorOutcome where
  result : DownloadResult
  temp_dir_removed : Bool
deriving Repr

/-- Model of `_download_with_selector` (downloader.py lines 686-788).  The
success path (lines 740-773) returns `ok := True` with `direct_url := None`
and leaves the artifact in the temp directory for the caller.  The exception
path (lines 774-788) returns `ok := False` with a direct url recovered from
cached metadata; the function body contains no `shutil.rmtree`, so neither
path removes the temp directory it created at line 691. -/
def download_with_selector (env : SelectorEnv) : SelectorOutcome :=
  if env.raises then
    { result :=
        { ok := false
          filepath := none
          title := env.probe_title
          filesize := none
          direct_url := env.probe_direct_url
          kind := env.probe_kind
          error := some env.error_msg }
      temp_dir_removed := false }
  else
    { result :=
        { ok := true
          filepath := env.found_filepath
          title := env.found_title
          filesize := env.found_size
          direct_url := none
          kind := env.found_kind
          error := none }
      temp_dir_removed := false }

/-! ### src/app/config.py — bounded integer environment variables -/

/-- Value of a digit run, or none when empty or not all digits
(the digit core of Python `int(str)`). -/
def digits_value : List Char → Option Nat
  | [] => none
  | cs =>
      if cs.all Char.isDigit then
        some (cs.foldl (fun a c => a * 10 + (c.toNat - 48)) 0)
      else none

/-- Leading/trailing-space trimming on a character list. -/
def trim_chars (cs : List Char) : List Char :=
  ((cs.dropWhile (fun c => c = ' ')).reverse.dropWhile (fun c => c = ' ')).reverse

/-- Model of Python `int(raw)` on environment strings: surrounding spaces are
ignored, an optional sign precedes a non-empty digit run; anything else
raises `ValueError`, modelled as `none`. -/
def py_int_of_string (s : String) : Option Int :=
  match trim_chars s.toList with
  | [] => none
  | c :: rest =>
      if c = '-' then (digits_value rest).map (fun n => -(n : Int))
      else if c = '+' then (digits_value rest).map (fun n => (n : Int))
      else (digits_value (c :: rest)).map (fun n => (n : Int))

/-- Model of `_get_int_env` (config.py lines 67-80): unset or blank input
falls back to the default; a `ValueError` from `int(raw)` falls back to the
default; a parsed value is clamped to `min_value` (via `max`) and then to
`max_value` (via `min`). -/
def get_int_env (raw : Option String) (dflt : Int)
    (min_value max_value : Option Int) : Int :=
  match raw with
  | none => dflt
  | some s =>
      if (trim_chars s.toList).isEmpty then dflt
      else
        match py_int_of_string s with
        | none => dflt
        | some v =>
            let v1 := match min_value with
              | some lo => max lo v
              | none => v
            match max_value with
            | some hi => min hi v1
            | none => v1

/-- Model of `get_probe_concurrency` (config.py line 85). -/
def get_probe_concurrency (raw : Option String) : Int :=
  get_int_env raw 4 (some 1) none

/-- Model of `get_download_concurrency` (config.py line 90). -/
def get_download_concurrency (raw : Option String) : Int :=
  get_int_env raw 6 (some 1) none

/-- Model of `get_metadata_cache_ttl` (config.py line 95). -/
def get_metadata_cache_ttl (raw : Option String) : Int :=
  get_int_env raw 300 (some 0) none

/-- Model of `get_metadata_cache_size` (config.py line 100). -/
def get_metadata_cache_size (raw : Option String) : Int :=
  get_int_env raw 128 (some 1) none

/-- Model of `get_thread_pool_workers` (config.py lines 103-105); its default
is computed from the probe and download concurrency settings. -/
def get_thread_pool_workers (raw raw_probe raw_download : Option String) : Int :=
  get_int_env raw
    (max 8 (get_probe_concurrency raw_probe + get_download_concurrency raw_download))
    (some 2) (some 128)

/-- Model of `get_ytdlp_fragment_concurrency` (config.py line 109). -/
def get_ytdlp_fragment_concurrency (raw : Option String) : Int :=
  get_int_env raw 8 (some 1) (some 32)

/-- Model of `get_max_active_jobs` (config.py line 114). -/
def get_max_active_jobs (raw : Option String) : Int :=
  get_int_env raw 12 (some 0) (some 128)

/-- Model of `get_max_chat_jobs` (config.py line 119). -/
def get_max_chat_jobs (raw : Option String) : Int :=
  get_int_env raw 3 (some 0) (some 32)

/-- Model of `get_user_cooldown_seconds` (config.py line 124). -/
def get_user_cooldown_seconds (raw : Option String) : Int :=
  get_int_env raw 5 (some 0) (some 600)

/-! ### src/app/state.py — token/payload store for menu callbacks

`put_payload` draws a random url-safe token; the token is passed in here as
an argument, abstracting the randomness.  The stored dict receives a `ts`
field at insertion time; payload contents are opaque (type parameter `π`). -/

/-- Payload TTL, `_TTL_SECONDS = 60 * 30` (state.py line 7). -/
def PAYLOAD_TTL_SECONDS : Nat := 60 * 30

/-- One stored payload: the caller data plus the `ts` stamp `put_payload`
writes into the dict. -/
structure StoredPayload (π : Type) where
  data : π
  ts : Nat
deriving DecidableEq, Repr

/-- The module-level `_STORE` dict. -/
abbrev PayloadStore (π : Type) := List (String × StoredPayload π)

/-- Model of `_cleanup` (state.py lines 14-18): drop every entry strictly
older than the TTL. -/
def payload_cleanup {π : Type} (now : Nat) (store : PayloadStore π) : PayloadStore π :=
  store.filter (fun p => ¬ PAYLOAD_TTL_SECONDS < now - p.2.ts)

/-- Model of `put_payload` (state.py lines 21-27): clean up, stamp the
payload with the current time, store it under the fresh token. -/
def put_payload {π : Type} (store : PayloadStore π) (token : String)
    (d : π) (now : Nat) : PayloadStore π :=
  aset (payload_cleanup now store) token ⟨d, now⟩

/-- Model of `get_payload` (state.py lines 30-32): clean up, then look the
token up; returns the store after the lazy cleanup together with the hit. -/
def get_payload {π : Type} (store : PayloadStore π) (token : String)
    (now : Nat) : PayloadStore π × Option (StoredPayload π) :=
  let s := payload_cleanup now store
  (s, alookup s token)

/-! ### src/app/handlers.py — delivery cache, job registry, delivery pipeline

`_schedule_download` runs synchronously on the event loop (it contains no
await), so one inbound request is one atomic transition on the module state
(`_ACTIVE_JOBS`, `_DELIVERY_CACHE`, the set of spawned download tasks).
Listeners are identified by opaque numeric ids; the chat-platform messages
and locale they carry do not influence the control flow modelled here. -/

/-- Job key: `(chat id, url, kind, quality)` (handlers.py line 566). -/
abbrev JobKey := Nat × String × String × String

/-- Delivery cache TTL, `_CACHE_TTL_SECONDS = 15 * 60` (handlers.py
line 101). -/
def CACHE_TTL_SECONDS : Nat := 15 * 60

/-- Direct-transport ceiling in MB, `TELEGRAM_UPLOAD_LIMIT_MB = 48`
(downloader.py line 45). -/
def TELEGRAM_UPLOAD_LIMIT_MB : Nat := 48

/-- Model of the `DeliveryCacheEntry` dataclass (handlers.py lines 90-97). -/
structure DeliveryCacheEntry where
  mode : String
  kind : Option String
  file_id : Option String
  caption : Option String
  direct_url : Option String
  expires_at : Nat
deriving DecidableEq, Repr

/-- The `_DELIVERY_CACHE` dict (handlers.py line 100). -/
abbrev DeliveryCache := List (JobKey × DeliveryCacheEntry)

/-- Model of `_get_cached_delivery` (handlers.py lines 438-445): a missing
key is a miss; an entry whose expiry has passed is popped and reported as a
miss; otherwise the entry is returned and the cache is untouched. -/
def get_cached_delivery (cache : DeliveryCache) (key : JobKey) (now : Nat) :
    Option DeliveryCacheEntry × DeliveryCache :=
  match alookup cache key with
  | none => (none, cache)
  | some e =>
      if e.expires_at ≤ now then (none, aerase cache key)
      else (some e, cache)

/-- Model of `_store_file_delivery` (handlers.py lines 448-461). -/
def store_file_delivery (cache : DeliveryCache) (key : JobKey) (kind : String)
    (file_id : String) (caption : Option String) (now : Nat) : DeliveryCache :=
  aset cache key
    { mode := "bot_file"
      kind := some kind
      file_id := some file_id
      caption := caption
      direct_url := none
      expires_at := now + CACHE_TTL_SECONDS }

/-- Model of `_store_link_delivery` (handlers.py lines 464-476). -/
def store_link_delivery (cache : DeliveryCache) (key : JobKey)
    (direct_url : String) (caption : Option String) (now : Nat) : DeliveryCache :=
  aset cache key
    { mode := "direct_link"
      kind := none
      file_id := none
      caption := caption
      direct_url := some direct_url
      expires_at := now + CACHE_TTL_SECONDS }

/-- Model of a `DownloadJob` (handlers.py lines 77-85): its key and the
insertion-ordered listener list (listener ids). -/
structure DownloadJob where
  key : JobKey
  listeners : List Nat
deriving DecidableEq, Repr

/-- Module state touched by `_schedule_download`: the `_ACTIVE_JOBS`
registry, the `_DELIVERY_CACHE`, and the log of download tasks spawned with
`asyncio.create_task(_run_download_job job)` (the queued-acknowledgment edit
tasks are not download tasks and are not logged). -/
structure BotState where
  active_jobs : List (JobKey × List Nat)
  delivery_cache : DeliveryCache
  started_tasks : List JobKey
deriving DecidableEq, Repr

/-- What `_schedule_download` did with one request. -/
inductive ScheduleAction
  | served_from_cache (e : DeliveryCacheEntry)
  | attached_listener
  | created_job
deriving DecidableEq, Repr

/-- Model of `_schedule_download` (handlers.py lines 558-610): consult the
delivery cache first and short-circuit on a hit; otherwise attach to an
existing job for the key; otherwise register a new job holding this single
listener and spawn its background download task.  The source performs no
admission check here: neither `get_max_active_jobs`, `get_max_chat_jobs`,
`get_user_cooldown_seconds` nor `state.set_user_last_request` /
`state.get_user_last_request` is called anywhere in handlers.py. -/
def schedule_download (s : BotState) (key : JobKey) (lid : Nat) (now : Nat) :
    BotState × ScheduleAction :=
  let r := get_cached_delivery s.delivery_cache key now
  match r.1 with
  | some e => ({ s with delivery_cache := r.2 }, .served_from_cache e)
  | none =>
      match alookup s.active_jobs key with
      | some ls =>
          ({ s with
              delivery_cache := r.2
              active_jobs := aset s.active_jobs key (ls ++ [lid]) },
            .attached_listener)
      | none =>
          ({ s with
              delivery_cache := r.2
              active_jobs := aset s.active_jobs key [lid]
              started_tasks := s.started_tasks ++ [key] },
            .created_job)

/-- A burst of requests for one key: each element is (listener id, arrival
time), applied in order. -/
def schedule_many (s : BotState) (key : JobKey) (reqs : List (Nat × Nat)) : BotState :=
  reqs.foldl (fun s r => (schedule_download s key r.1 r.2).1) s

/-- What `_deliver_from_cache` sends to the requester. -/
inductive CacheDeliveryAction
  | resend_file (file_id : String)
  | send_link (url : String)
  | cache_error
deriving DecidableEq, Repr

/-- Second half of `_deliver_from_cache` (handlers.py lines 517-533): the
`direct_link` re-send, else the error edit. -/
def deliver_from_cache_link (e : DeliveryCacheEntry) : CacheDeliveryAction :=
  if e.mode = "direct_link" then
    match e.direct_url with
    | some u => .send_link u
    | none => .cache_error
  else .cache_error

/-- Model of `_deliver_from_cache` (handlers.py lines 511-535): a `bot_file`
entry re-sends the cached platform file handle; a `direct_link` entry
re-sends the cached url; anything else reports an error. -/
def deliver_from_cache (e : DeliveryCacheEntry) : CacheDeliveryAction :=
  if e.mode = "bot_file" then
    match e.file_id with
    | some fid => .resend_file fid
    | none => deliver_from_cache_link e
  else deliver_from_cache_link e

/-- Terminal notification kinds a listener can receive. -/
inductive TerminalKind
  | delivered
  | delivered_relay
  | delivered_link (url : String)
  | errored
deriving DecidableEq, Repr

/-- Environment of one `_deliver_result` run: the bypass mode from config,
whether `os.path.exists(result.filepath)` holds, the file id extracted from
the message the bot sent, the outcome of the relay (`send_file_to_bot`), and
the current time. -/
structure DeliverEnv where
  bypass_mode : String
  file_exists : Bool
  extracted_file_id : Option String
  relay_ok : Bool
  now : Nat
deriving Repr

/-- Observable outcome of `_deliver_result`: the terminal notification each
listener receives, the delivery-cache write (if any), and whether
`_cleanup_temp` ran on the artifact. -/
structure DeliverOutcome where
  notifications : List (Nat × TerminalKind)
  cache_write : Option (JobKey × DeliveryCacheEntry)
  cleaned_temp : Bool
deriving DecidableEq, Repr

/-- Model of `_broadcast_error` (handlers.py lines 683-689): every listener
of the job gets an error edit. -/
def broadcast_error (job : DownloadJob) : List (Nat × TerminalKind) :=
  job.listeners.map (fun l => (l, .errored))

/-- Model of `_deliver_result` (handlers.py lines 692-771).  Stage order of
the source: direct bot upload when the artifact exists and fits under the
ceiling (caching the extracted file id); otherwise the userbot relay when
configured and an artifact exists (its success returns, its cache write
arrives later out of band via `on_userbot_private_upload`); otherwise the
direct-link fallback (cached); otherwise the error broadcast.  `_cleanup_temp`
runs on every path that still holds an artifact. -/
def deliver_result (env : DeliverEnv) (job : DownloadJob)
    (result : DownloadResult) : DeliverOutcome :=
  match job.listeners with
  | [] => { notifications := [], cache_write := none, cleaned_temp := false }
  | _ =>
      let caption := result.title
      let limit_bytes := TELEGRAM_UPLOAD_LIMIT_MB * 1024 * 1024
      let filepath : Option String :=
        match result.filepath with
        | some fp => if env.file_exists then some fp else none
        | none => none
      let size := result.filesize.getD 0
      if filepath.isSome ∧ size ≤ limit_bytes then
        { notifications := job.listeners.map (fun l => (l, .delivered))
          cache_write :=
            match env.extracted_file_id with
            | some fid =>
                some (job.key,
                  { mode := "bot_file"
                    kind := some (result.kind.getD "document")
                    file_id := some fid
                    caption := caption
                    direct_url := none
                    expires_at := env.now + CACHE_TTL_SECONDS })
            | none => none
          cleaned_temp := true }
      else if env.bypass_mode = "userbot" ∧ filepath.isSome ∧ env.relay_ok then
        { notifications := job.listeners.map (fun l => (l, .delivered_relay))
          cache_write := none
          cleaned_temp := true }
      else
        match result.direct_url with
        | some u =>
            { notifications := job.listeners.map (fun l => (l, .delivered_link u))
              cache_write :=
                some (job.key,
                  { mode := "direct_link"
                    kind := none
                    file_id := none
                    caption := caption
                    direct_url := some u
                    expires_at := env.now + CACHE_TTL_SECONDS })
              cleaned_temp := filepath.isSome }
        | none =>
            { notifications := job.listeners.map (fun l => (l, .errored))
              cache_write := none
              cleaned_temp := filepath.isSome }

/-- End-to-end outcome of one `_run_download_job` task, adding whether the
temp directory created by `_download_with_selector` was ever removed. -/
structure JobRunOutcome where
  notifications : List (Nat × TerminalKind)
  cache_write : Option (JobKey × DeliveryCacheEntry)
  temp_dir_removed : Bool
deriving DecidableEq, Repr

/-- Model of `_run_download_job` (handlers.py lines 613-680) composed with
`_download_with_selector`: a failed download broadcasts the error and
returns (neither the handler nor the downloader removes the temp dir on this
path); a successful download runs `_deliver_result`, whose `_cleanup_temp`
is then the only removal of the artifact directory. -/
def run_download_job (sel_env : SelectorEnv) (env : DeliverEnv)
    (job : DownloadJob) : JobRunOutcome :=
  let dl := download_with_selector sel_env
  if dl.result.ok then
    let o := deliver_result env job dl.result
    { notifications := o.notifications
      cache_write := o.cache_write
      temp_dir_removed := dl.temp_dir_removed || o.cleaned_temp }
  else
    { notifications := broadcast_error job
      cache_write := none
      temp_dir_removed := dl.temp_dir_removed }

/-- Model of `_make_progress_editor`'s per-listener throttle decision
(handlers.py lines 400-426).  `pct` is the percentage carried by the event
(`None` when the byte total is unknown); `last_pct`, `last_ts` are the
listener's mutable throttle state; `now` is `loop.time()`. -/
def progress_editor_should_update (status : String) (pct : Option ℚ)
    (last_pct last_ts now : ℚ) : Bool :=
  if status = "downloading" ∨ status = "uploading" then
    match pct with
    | none => decide (1 ≤ now - last_ts)
    | some p =>
        decide (99 ≤ p) || decide (2 ≤ p - last_pct) || decide (1 ≤ now - last_ts)
  else if status = "finished" then true
  else decide (1 ≤ now - last_ts)

/-- Initial throttle state of a freshly attached listener
(`{"pct": -5.0, "ts": 0.0}`, handlers.py line 402). -/
def PROGRESS_INIT_PCT : ℚ := -5

/-- Initial throttle timestamp of a freshly attached listener. -/
def PROGRESS_INIT_TS : ℚ := 0

/-- State update of the throttle (handlers.py lines 420-422): on a push the
timestamp is refreshed and, when the event carries a percentage, the
percentage is recorded; a suppressed event leaves the state unchanged. -/
def progress_editor_step (status : String) (pct : Option ℚ)
    (last_pct last_ts now : ℚ) : Bool × ℚ × ℚ :=
  if progress_editor_should_update status pct last_pct last_ts now then
    (true, (match pct with | some p => p | none => last_pct), now)
  else
    (false, last_pct, last_ts)

/-- The push rule exactly as the specification states it ("push if the
status is a terminal status (finished), or if at least 2 percentage points
have elapsed since that listener's last push, or if at least 1 second of
wall time has elapsed since that listener's last push, or if no total is
known and at least 1 second has elapsed"); written from the spec, to be
compared with `progress_editor_should_update`, which is written from the
source. -/
def claim_push_rule (status : String) (pct : Option ℚ)
    (last_pct last_ts now : ℚ) : Bool :=
  decide (status = "finished") ||
  (match pct with
   | some p => decide (2 ≤ p - last_pct)
   | none => false) ||
  decide (1 ≤ now - last_ts) ||
  (pct.isNone && decide (1 ≤ now - last_ts))

/-! ### Association-list lemmas -/

theorem alookup_eq_none_of_keys {κ β : Type} [DecidableEq κ]
    (l : List (κ × β)) (k : κ) (h : ∀ p ∈ l, p.1 ≠ k) : alookup l k = none := by
  induction l with
  | nil => rfl
  | cons hd tl ih =>
      simp only [alookup]
      rw [if_neg (h hd (List.mem_cons_self hd tl))]
      exact ih (fun p hp => h p (List.mem_cons_of_mem hd hp))

theorem alookup_append_last {κ β : Type} [DecidableEq κ]
    (l : List (κ × β)) (k : κ) (v : β) (h : ∀ p ∈ l, p.1 ≠ k) :
    alookup (l ++ [(k, v)]) k = some v := by
  induction l with
  | nil => simp [alookup]
  | cons hd tl ih =>
      simp only [List.cons_append, alookup]
      rw [if_neg (h hd (List.mem_cons_self hd tl))]
      exact ih (fun p hp => h p (List.mem_cons_of_mem hd hp))

theorem keys_ne_of_mem_aerase {κ β : Type} [DecidableEq κ]
    (l : List (κ × β)) (k : κ) : ∀ p ∈ aerase l k, p.1 ≠ k := by
  intro p hp
  have h := List.of_mem_filter hp
  simpa using h

theorem alookup_aerase_self {κ β : Type} [DecidableEq κ]
    (l : List (κ × β)) (k : κ) : alookup (aerase l k) k = none :=
  alookup_eq_none_of_keys _ _ (keys_ne_of_mem_aerase l k)

theorem aerase_eq_self {κ β : Type} [DecidableEq κ]
    (l : List (κ × β)) (k : κ) (h : ∀ p ∈ l, p.1 ≠ k) : aerase l k = l := by
  refine List.filter_eq_self.mpr ?_
  intro p hp
  simpa using h p hp

theorem alookup_aset_self {κ β : Type} [DecidableEq κ]
    (l : List (κ × β)) (k : κ) (v : β) : alookup (aset l k v) k = some v := by
  induction l with
  | nil => simp [aset, alookup]
  | cons hd tl ih =>
      cases hd with
      | mk k1 v1 =>
          by_cases hk : k1 = k
          · simp [aset, hk, alookup]
          · simp [aset, hk, alookup, ih]

theorem drop_append_drop {γ : Type} (l m : List γ) (a b : Nat) (h : a ≤ l.length) :
    (l.drop a ++ m).drop b = (l ++ m).drop (a + b) := by
  rw [← List.drop_drop b a (l ++ m), List.drop_append_of_le_length h]

/-! ### C3 — the metadata expiring cache -/

theorem metadata_hit_survives_evict {α : Type}
    (size : Nat) (hsz : 1 ≤ size) (c : MetadataCache α)
    (url : String) (e : MetadataEntry α) :
    alookup
      ((aerase c url ++ [(url, e)]).drop ((aerase c url ++ [(url, e)]).length - size))
      url = some e := by
  set l := aerase c url with hl
  have hlen : (l ++ [(url, e)]).length = l.length + 1 := by simp
  have hd : (l ++ [(url, e)]).length - size ≤ l.length := by omega
  rw [List.drop_append_of_le_length hd]
  apply alookup_append_last
  intro p hp
  exact keys_ne_of_mem_aerase c url p (List.mem_of_mem_drop hp)

theorem metadata_insert_all_keys {α : Type} (ttl size : Nat)
    (httl : ttl ≠ 0) (hsz : 1 ≤ size) (now : Nat)
    (info : Option α) (err : Option String) :
    ∀ (urls : List String) (c : MetadataCache α),
      urls.Nodup → (∀ u ∈ urls, ∀ p ∈ c, p.1 ≠ u) → c.length ≤ size →
      keysOf (metadata_insert_all ttl size now c urls info err)
        = (keysOf c ++ urls).drop ((keysOf c ++ urls).length - size) := by
  intro urls
  induction urls with
  | nil =>
      intro c _ _ hlen
      have hkc : (keysOf c).length = c.length := List.length_map _ _
      have h0 : (keysOf c).length - size = 0 := by omega
      simp [metadata_insert_all, h0]
  | cons u us ih =>
      intro c hnd hfresh hlen
      have hu : ∀ p ∈ c, p.1 ≠ u :=
        hfresh u (List.mem_cons_self u us)
      have hstep : metadata_insert_all ttl size now c (u :: us) info err
          = metadata_insert_all ttl size now
              (metadata_cache_set ttl size now c u info err) us info err := rfl
      have hset : metadata_cache_set ttl size now c u info err
          = (c ++ [(u, (now, info, err))]).drop ((c.length + 1) - size) := by
        simp only [metadata_cache_set, if_neg httl]
        rw [aerase_eq_self c u hu]
        simp
      set e : MetadataEntry α := (now, info, err) with he
      set d := (c.length + 1) - size with hdd
      have hsetlen : (metadata_cache_set ttl size now c u info err).length
          = (c.length + 1) - d := by
        rw [hset]
        rw [List.length_drop]
        simp
      have hmem : ∀ p ∈ metadata_cache_set ttl size now c u info err,
          p ∈ c ++ [(u, e)] := by
        intro p hp
        rw [hset] at hp
        exact List.mem_of_mem_drop hp
      have hfresh2 : ∀ v ∈ us, ∀ p ∈ metadata_cache_set ttl size now c u info err,
          p.1 ≠ v := by
        intro v hv p hp
        rcases List.mem_append.mp (hmem p hp) with hc | hlast
        · exact hfresh v (List.mem_cons_of_mem u hv) p hc
        · have hpu : p = (u, e) := by simpa using hlast
          rw [hpu]
          intro hh
          have hh2 : u = v := hh
          exact (List.nodup_cons.mp hnd).1 (by rw [hh2]; exact hv)
      have ihres := ih (metadata_cache_set ttl size now c u info err)
        (List.nodup_cons.mp hnd).2 hfresh2 (by omega)
      rw [hstep, ihres]
      have hkeyset : keysOf (metadata_cache_set ttl size now c u info err)
          = (keysOf c ++ [u]).drop d := by
        rw [hset]
        show ((c ++ [(u, e)]).drop d).map Prod.fst = _
        rw [List.map_drop]
        simp [keysOf]
      rw [hkeyset]
      have hkc : (keysOf c).length = c.length := List.length_map _ _
      have hdle : d ≤ (keysOf c ++ [u]).length := by
        simp only [List.length_append, List.length_singleton]
        omega
      rw [drop_append_drop _ _ _ _ hdle]
      have hassoc : keysOf c ++ [u] ++ us = keysOf c ++ (u :: us) := by
        simp
      rw [hassoc]
      congr 1
      have ha : (keysOf c ++ [u]).length = c.length + 1 := by
        simp [hkc]
      simp only [List.length_append, List.length_drop, List.length_cons,
        List.length_singleton, hkc, ha]
      omega

theorem metadata_cache_get_live {α : Type} (ttl now ts : Nat)
    (c : MetadataCache α) (url : String) (info : Option α) (err : Option String)
    (httl : ttl ≠ 0) (h : alookup c url = some (ts, info, err))
    (hlive : ¬ ttl < now - ts) :
    metadata_cache_get ttl now c url
      = (some (info, err), aerase c url ++ [(url, (ts, info, err))]) := by
  simp only [metadata_cache_get, if_neg httl, h]
  rw [if_neg hlive]

/-- C3: the metadata expiring cache: a set immediately followed by a get
within the TTL returns the stored value; a get whose stored timestamp is
older than the TTL misses and removes the entry; inserting more than the
maximum number of (distinct, fresh) entries evicts the oldest so exactly the
newest `size` remain, a hit moving its entry to the most-recently-used end;
and with TTL 0 every set is a no-op and every get misses. -/
theorem metadata_cache_contract {α : Type} :
    (∀ (ttl size t t2 : Nat) (c : MetadataCache α) (url : String)
        (info : Option α) (err : Option String),
        ttl ≠ 0 → 1 ≤ size → t2 - t ≤ ttl →
        (metadata_cache_get ttl t2
            (metadata_cache_set ttl size t c url info err) url).1
          = some (info, err)) ∧
    (∀ (ttl now : Nat) (c : MetadataCache α) (url : String) (ts : Nat)
        (info : Option α) (err : Option String),
        ttl ≠ 0 → alookup c url = some (ts, info, err) → ttl < now - ts →
        metadata_cache_get ttl now c url = (none, aerase c url) ∧
        alookup (aerase c url) url = none) ∧
    (∀ (ttl size now : Nat) (urls : List String)
        (info : Option α) (err : Option String),
        ttl ≠ 0 → 1 ≤ size → urls.Nodup →
        keysOf (metadata_insert_all ttl size now ([] : MetadataCache α) urls info err)
          = urls.drop (urls.length - size)) ∧
    (∀ (ttl now : Nat) (c : MetadataCache α) (url : String) (ts : Nat)
        (info : Option α) (err : Option String),
        ttl ≠ 0 → alookup c url = some (ts, info, err) → ¬ ttl < now - ts →
        (metadata_cache_get ttl now c url).2
          = aerase c url ++ [(url, (ts, info, err))]) ∧
    (∀ (size now : Nat) (c : MetadataCache α) (url : String)
        (info : Option α) (err : Option String),
        metadata_cache_set 0 size now c url info err = c ∧
        metadata_cache_get 0 now c url = (none, c)) := by
  refine ⟨?_, ?_, ?_, ?_, ?_⟩
  · intro ttl size t t2 c url info err httl hsz hfresh
    have hset : metadata_cache_set ttl size t c url info err
        = (aerase c url ++ [(url, (t, info, err))]).drop
            ((aerase c url ++ [(url, (t, info, err))]).length - size) := by
      simp [metadata_cache_set, if_neg httl]
    rw [hset]
    rw [metadata_cache_get_live ttl t2 t _ url info err httl
      (metadata_hit_survives_evict size hsz c url (t, info, err)) (by omega)]
  · intro ttl now c url ts info err httl hlook hexp
    constructor
    · simp only [metadata_cache_get, if_neg httl, hlook]
      rw [if_pos hexp]
    · exact alookup_aerase_self c url
  · intro ttl size now urls info err httl hsz hnd
    have h := metadata_insert_all_keys ttl size httl hsz now info err urls []
      hnd (by intro u _ p hp; cases hp) (by simp)
    simpa [keysOf] using h
  · intro ttl now c url ts info err httl hlook hlive
    rw [metadata_cache_get_live ttl now ts c url info err httl hlook hlive]
  · intro size now c url info err
    exact ⟨rfl, rfl⟩

/-- Concrete instance of the metadata-cache contract: a set at time 5 read
back at time 100 with TTL 300 hits; an entry stamped 0 read at time 400
misses and is gone; three distinct urls inserted with size bound 2 keep the
newest two; a live hit moves to the most-recently-used end; TTL 0 disables
the cache. -/
theorem metadata_cache_contract_witness :
    (metadata_cache_get 300 100
        (metadata_cache_set 300 2 5 ([] : MetadataCache Nat) "u" (some 7) none)
        "u").1 = some (some 7, none) ∧
    metadata_cache_get 300 400 [("u", (0, some 7, none))] "u"
      = (none, ([] : MetadataCache Nat)) ∧
    keysOf (metadata_insert_all 300 2 9 ([] : MetadataCache Nat)
        ["a", "b", "c"] (some 7) none) = ["b", "c"] ∧
    (metadata_cache_get 300 100 [("u", (50, some 7, none)), ("v", (60, some 8, none))]
        "u").2 = [("v", (60, some 8, none)), ("u", (50, some 7, none))] ∧
    metadata_cache_set 0 2 9 ([] : MetadataCache Nat) "u" (some 7) none = [] := by
  have h := @metadata_cache_contract Nat
  refine ⟨?_, ?_, ?_, ?_, ?_⟩
  · exact h.1 300 2 5 100 [] "u" (some 7) none (by decide) (by decide) (by decide)
  · have h2 := h.2.1 300 400 [("u", (0, some 7, none))] "u" 0 (some 7) none
      (by decide) (by decide) (by decide)
    simpa [aerase] using h2.1
  · have h3 := h.2.2.1 300 2 9 ["a", "b", "c"] (some 7) none
      (by decide) (by decide) (by decide)
    simpa using h3
  · have h4 := h.2.2.2.1 300 100
      [("u", (50, some 7, none)), ("v", (60, some 8, none))] "u" 50 (some 7) none
      (by decide) (by decide) (by decide)
    simpa [aerase] using h4
  · exact (h.2.2.2.2 2 9 [] "u" (some 7) none).1

/-! ### C9 — bounded integer configuration -/

theorem get_int_env_unset (d : Int) (lo hi : Option Int) :
    get_int_env none d lo hi = d := rfl

theorem get_int_env_fail (s : String) (d : Int) (lo hi : Option Int)
    (h : py_int_of_string s = none) : get_int_env (some s) d lo hi = d := by
  simp only [get_int_env]
  by_cases he : (trim_chars s.toList).isEmpty
  · rw [if_pos he]
  · rw [if_neg he, h]

theorem trim_nonempty_of_parse (s : String) (v : Int)
    (h : py_int_of_string s = some v) : trim_chars s.toList ≠ [] := by
  unfold py_int_of_string at h
  cases htr : trim_chars s.toList with
  | nil => rw [htr] at h; exact absurd h (by simp)
  | cons c rest => simp

theorem get_int_env_parse_min (s : String) (v d lo : Int)
    (h : py_int_of_string s = some v) :
    get_int_env (some s) d (some lo) none = max lo v := by
  have hne : ¬ trim_chars s.data = [] := trim_nonempty_of_parse s v h
  simp only [get_int_env]
  rw [if_neg (by simp [hne]), h]

theorem get_int_env_parse_minmax (s : String) (v d lo hi : Int)
    (h : py_int_of_string s = some v) :
    get_int_env (some s) d (some lo) (some hi) = min hi (max lo v) := by
  have hne : ¬ trim_chars s.data = [] := trim_nonempty_of_parse s v h
  simp only [get_int_env]
  rw [if_neg (by simp [hne]), h]

/-- C9 counterexample: `PROBE_CONCURRENCY=0` is below the documented minimum
of 1 (default 4), yet the getter returns the clamped bound 1, not the default
4; `MAX_ACTIVE_JOBS=999` is above the documented maximum of 128 (default 12),
yet the getter returns 128, not 12.  The unset readings confirm what the
documented defaults are. -/
theorem get_int_env_clamp_counterexample :
    get_probe_concurrency (some "0") = 1 ∧
    get_probe_concurrency none = 4 ∧
    get_max_active_jobs (some "999") = 128 ∧
    get_max_active_jobs none = 12 := by
  refine ⟨by decide, rfl, by decide, rfl⟩

/-- C9 amended: an unset, blank, or non-numeric environment value falls back
to the documented default for every bounded integer configuration variable;
a numeric value is clamped into the documented bounds (`max` with the
minimum, then `min` with the maximum) rather than replaced by the default. -/
theorem get_int_env_contract :
    (∀ (s : String), py_int_of_string s = none →
        get_probe_concurrency (some s) = 4 ∧
        get_download_concurrency (some s) = 6 ∧
        get_metadata_cache_ttl (some s) = 300 ∧
        get_metadata_cache_size (some s) = 128 ∧
        get_thread_pool_workers (some s) none none = 10 ∧
        get_ytdlp_fragment_concurrency (some s) = 8 ∧
        get_max_active_jobs (some s) = 12 ∧
        get_max_chat_jobs (some s) = 3 ∧
        get_user_cooldown_seconds (some s) = 5) ∧
    (∀ (s : String) (v : Int), py_int_of_string s = some v →
        get_probe_concurrency (some s) = max 1 v ∧
        get_download_concurrency (some s) = max 1 v ∧
        get_metadata_cache_ttl (some s) = max 0 v ∧
        get_metadata_cache_size (some s) = max 1 v ∧
        get_thread_pool_workers (some s) none none = min 128 (max 2 v) ∧
        get_ytdlp_fragment_concurrency (some s) = min 32 (max 1 v) ∧
        get_max_active_jobs (some s) = min 128 (max 0 v) ∧
        get_max_chat_jobs (some s) = min 32 (max 0 v) ∧
        get_user_cooldown_seconds (some s) = min 600 (max 0 v)) ∧
    (get_probe_concurrency none = 4 ∧
      get_download_concurrency none = 6 ∧
      get_metadata_cache_ttl none = 300 ∧
      get_metadata_cache_size none = 128 ∧
      get_thread_pool_workers none none none = 10 ∧
      get_ytdlp_fragment_concurrency none = 8 ∧
      get_max_active_jobs none = 12 ∧
      get_max_chat_jobs none = 3 ∧
      get_user_cooldown_seconds none = 5) := by
  refine ⟨?_, ?_, ?_⟩
  · intro s h
    exact ⟨get_int_env_fail s 4 (some 1) none h,
      get_int_env_fail s 6 (some 1) none h,
      get_int_env_fail s 300 (some 0) none h,
      get_int_env_fail s 128 (some 1) none h,
      get_int_env_fail s 10 (some 2) (some 128) h,
      get_int_env_fail s 8 (some 1) (some 32) h,
      get_int_env_fail s 12 (some 0) (some 128) h,
      get_int_env_fail s 3 (some 0) (some 32) h,
      get_int_env_fail s 5 (some 0) (some 600) h⟩
  · intro s v h
    exact ⟨get_int_env_parse_min s v 4 1 h,
      get_int_env_parse_min s v 6 1 h,
      get_int_env_parse_min s v 300 0 h,
      get_int_env_parse_min s v 128 1 h,
      get_int_env_parse_minmax s v 10 2 128 h,
      get_int_env_parse_minmax s v 8 1 32 h,
      get_int_env_parse_minmax s v 12 0 128 h,
      get_int_env_parse_minmax s v 3 0 32 h,
      get_int_env_parse_minmax s v 5 0 600 h⟩
  · exact ⟨rfl, rfl, rfl, rfl, rfl, rfl, rfl, rfl, rfl⟩

/-- Concrete instance of the configuration contract: the garbage value
"abc" yields the probe default 4, and the in-range value " 42 " yields 42
for the cooldown (clamped form shown as computed by the contract). -/
theorem get_int_env_contract_witness :
    get_probe_concurrency (some "abc") = 4 ∧
    get_user_cooldown_seconds (some " 42 ") = min 600 (max 0 42) := by
  constructor
  · exact (get_int_env_contract.1 "abc" (by decide)).1
  · exact (get_int_env_contract.2.1 " 42 " 42 (by decide)).2.2.2.2.2.2.2.2


/-! ### C10 — the menu-callback token store -/

theorem alookup_filter_first {κ β : Type} [DecidableEq κ]
    (pred : κ × β → Bool) :
    ∀ (l : List (κ × β)) (k : κ) (v : β),
      alookup l k = some v → pred (k, v) = true →
      alookup (l.filter pred) k = some v := by
  intro l
  induction l with
  | nil => intro k v h _; exact absurd h (by simp [alookup])
  | cons hd tl ih =>
      intro k v h hkeep
      cases hd with
      | mk k1 v1 =>
          by_cases hk : k1 = k
          · have hv : v1 = v := by
              simp only [alookup, if_pos hk] at h
              exact Option.some.inj h
            subst hk
            subst hv
            rw [List.filter_cons_of_pos hkeep]
            simp [alookup]
          · simp only [alookup, if_neg hk] at h
            by_cases hp : pred (k1, v1) = true
            · rw [List.filter_cons_of_pos hp]
              simp only [alookup, if_neg hk]
              exact ih k v h hkeep
            · rw [List.filter_cons_of_neg (by simpa using hp)]
              exact ih k v h hkeep

theorem alookup_filter_none {κ β : Type} [DecidableEq κ]
    (pred : κ × β → Bool) (l : List (κ × β)) (k : κ)
    (h : ∀ p ∈ l, p.1 = k → pred p = false) :
    alookup (l.filter pred) k = none := by
  apply alookup_eq_none_of_keys
  intro p hp hpk
  have hmem := List.mem_of_mem_filter hp
  have hpred := List.of_mem_filter hp
  rw [h p hmem hpk] at hpred
  cases hpred

theorem mem_aset {κ β : Type} [DecidableEq κ] :
    ∀ (l : List (κ × β)) (k : κ) (v : β) (p : κ × β),
      p ∈ aset l k v → p = (k, v) ∨ p ∈ l := by
  intro l
  induction l with
  | nil => intro k v p hp; left; simpa [aset] using hp
  | cons hd tl ih =>
      intro k v p hp
      cases hd with
      | mk k1 v1 =>
          by_cases hk : k1 = k
          · simp only [aset, if_pos hk] at hp
            rcases List.mem_cons.mp hp with h1 | h2
            · left; exact h1
            · right; exact List.mem_cons_of_mem _ h2
          · simp only [aset, if_neg hk] at hp
            rcases List.mem_cons.mp hp with h1 | h2
            · right; rw [h1]; exact List.mem_cons_self _ _
            · rcases ih k v p h2 with h3 | h4
              · left; exact h3
              · right; exact List.mem_cons_of_mem _ h4

theorem aset_unique_binding {κ β : Type} [DecidableEq κ] :
    ∀ (l : List (κ × β)) (k : κ) (v : β),
      (keysOf l).Nodup →
      ∀ p ∈ aset l k v, p.1 = k → p = (k, v) := by
  intro l
  induction l with
  | nil =>
      intro k v _ p hp _
      simpa [aset] using hp
  | cons hd tl ih =>
      intro k v hnd p hp hpk
      cases hd with
      | mk k1 v1 =>
          have hnd2 : (keysOf tl).Nodup := (List.nodup_cons.mp hnd).2
          have hk1 : k1 ∉ keysOf tl := by
            have := (List.nodup_cons.mp hnd).1
            simpa [keysOf] using this
          by_cases hk : k1 = k
          · simp only [aset, if_pos hk] at hp
            rcases List.mem_cons.mp hp with h1 | h2
            · exact h1
            · exfalso
              apply hk1
              rw [hk]
              rw [← hpk]
              exact List.mem_map_of_mem Prod.fst h2
          · simp only [aset, if_neg hk] at hp
            rcases List.mem_cons.mp hp with h1 | h2
            · exfalso
              apply hk
              rw [← hpk, h1]
            · exact ih k v hnd2 p h2 hpk

theorem alookup_aset_ne {κ β : Type} [DecidableEq κ] :
    ∀ (l : List (κ × β)) (k k2 : κ) (v : β), k2 ≠ k →
      alookup (aset l k2 v) k = alookup l k := by
  intro l
  induction l with
  | nil => intro k k2 v hne; simp [aset, alookup, hne]
  | cons hd tl ih =>
      intro k k2 v hne
      cases hd with
      | mk k1 v1 =>
          by_cases hk : k1 = k2
          · simp only [aset, if_pos hk, alookup, if_neg hne]
            rw [hk]
            simp [alookup, if_neg hne]
          · simp only [aset, if_neg hk, alookup]
            by_cases hk2 : k1 = k
            · rw [if_pos hk2, if_pos hk2]
            · rw [if_neg hk2, if_neg hk2]
              exact ih k k2 v hne

theorem payload_cleanup_keys_nodup {π : Type} (now : Nat)
    (store : PayloadStore π) (h : (keysOf store).Nodup) :
    (keysOf (payload_cleanup now store)).Nodup := by
  apply List.Nodup.sublist _ h
  exact List.Sublist.map Prod.fst (List.filter_sublist store)

/-- C10: every token stored by `put_payload` is valid for 30 minutes from
creation: a `get_payload` within the window returns the stored payload (with
its creation stamp), a `get_payload` after the window returns none, both
operations lazily purge every expired entry from the store, and intervening
`get_payload` calls or `put_payload` calls under other tokens inside the
window do not disturb the entry. -/
theorem put_get_payload_contract {π : Type} :
    (∀ (store : PayloadStore π) (tok : String) (d : π) (t0 t : Nat),
        t0 ≤ t → t - t0 ≤ PAYLOAD_TTL_SECONDS →
        (get_payload (put_payload store tok d t0) tok t).2
          = some ⟨d, t0⟩) ∧
    (∀ (store : PayloadStore π) (tok : String) (d : π) (t0 t : Nat),
        (keysOf store).Nodup → PAYLOAD_TTL_SECONDS < t - t0 →
        (get_payload (put_payload store tok d t0) tok t).2 = none) ∧
    (∀ (store : PayloadStore π) (tok : String) (d : π) (t : Nat),
        ∀ p ∈ put_payload store tok d t, ¬ PAYLOAD_TTL_SECONDS < t - p.2.ts) ∧
    (∀ (store : PayloadStore π) (tok : String) (t : Nat),
        ∀ p ∈ (get_payload store tok t).1, ¬ PAYLOAD_TTL_SECONDS < t - p.2.ts) ∧
    (∀ (store : PayloadStore π) (tok tok2 : String) (e : StoredPayload π) (t : Nat),
        alookup store tok = some e → t - e.ts ≤ PAYLOAD_TTL_SECONDS →
        alookup (get_payload store tok2 t).1 tok = some e) ∧
    (∀ (store : PayloadStore π) (tok tok2 : String) (e : StoredPayload π)
        (d2 : π) (t : Nat),
        tok2 ≠ tok → alookup store tok = some e → t - e.ts ≤ PAYLOAD_TTL_SECONDS →
        alookup (put_payload store tok2 d2 t) tok = some e) := by
  refine ⟨?_, ?_, ?_, ?_, ?_, ?_⟩
  · intro store tok d t0 t ht hwin
    show alookup
        ((put_payload store tok d t0).filter
          (fun p => ¬ PAYLOAD_TTL_SECONDS < t - p.2.ts)) tok
      = some (StoredPayload.mk d t0)
    apply alookup_filter_first
    · exact alookup_aset_self _ tok (StoredPayload.mk d t0)
    · show decide (¬ PAYLOAD_TTL_SECONDS < t - t0) = true
      simp only [decide_eq_true_eq]
      omega
  · intro store tok d t0 t hnd hexp
    show alookup
        ((put_payload store tok d t0).filter
          (fun p => ¬ PAYLOAD_TTL_SECONDS < t - p.2.ts)) tok
      = none
    apply alookup_filter_none
    intro p hp hpk
    have hnd2 : (keysOf (payload_cleanup t0 store)).Nodup :=
      payload_cleanup_keys_nodup t0 store hnd
    have hpe : p = (tok, ⟨d, t0⟩) :=
      aset_unique_binding (payload_cleanup t0 store) tok ⟨d, t0⟩ hnd2 p hp hpk
    rw [hpe]
    show decide (¬ PAYLOAD_TTL_SECONDS < t - t0) = false
    simp only [decide_eq_false_iff_not, Decidable.not_not]
    omega
  · intro store tok d t p hp
    rcases mem_aset (payload_cleanup t store) tok ⟨d, t⟩ p hp with h1 | h2
    · rw [h1]
      show ¬ PAYLOAD_TTL_SECONDS < t - t
      omega
    · have := List.of_mem_filter h2
      simpa using this
  · intro store tok t p hp
    have := List.of_mem_filter hp
    simpa using this
  · intro store tok tok2 e t hlook hwin
    show alookup
        (store.filter (fun p => ¬ PAYLOAD_TTL_SECONDS < t - p.2.ts)) tok
      = some e
    apply alookup_filter_first
    · exact hlook
    · show decide (¬ PAYLOAD_TTL_SECONDS < t - e.ts) = true
      simp only [decide_eq_true_eq]
      omega
  · intro store tok tok2 e d2 t hne hlook hwin
    show alookup (aset (payload_cleanup t store) tok2 ⟨d2, t⟩) tok = some e
    rw [alookup_aset_ne _ tok tok2 _ hne]
    show alookup
        (store.filter (fun p => ¬ PAYLOAD_TTL_SECONDS < t - p.2.ts)) tok
      = some e
    apply alookup_filter_first
    · exact hlook
    · show decide (¬ PAYLOAD_TTL_SECONDS < t - e.ts) = true
      simp only [decide_eq_true_eq]
      omega

/-- Concrete instance of the token-store contract: a payload stored at time
100 is readable at time 1900 (1800-second window), unreadable at time 1901,
and an expired foreign entry is purged by the read. -/
theorem put_get_payload_contract_witness :
    (get_payload (put_payload ([] : PayloadStore Nat) "tok" 7 100) "tok" 1900).2
      = some ⟨7, 100⟩ ∧
    (get_payload (put_payload ([] : PayloadStore Nat) "tok" 7 100) "tok" 1901).2
      = none ∧
    (∀ p ∈ put_payload [("old", (⟨3, 0⟩ : StoredPayload Nat))] "tok" 7 5000,
        ¬ PAYLOAD_TTL_SECONDS < 5000 - p.2.ts) := by
  refine ⟨?_, ?_, ?_⟩
  · exact put_get_payload_contract.1 [] "tok" 7 100 1900 (by decide) (by decide)
  · exact put_get_payload_contract.2.1 [] "tok" 7 100 1901 (by decide) (by decide)
  · exact put_get_payload_contract.2.2.1 [("old", ⟨3, 0⟩)] "tok" 7 5000



/-! ### C6 — the probe/download concurrency pools -/

theorem running_count_replicate_waiting (n : Nat) :
    running_count (List.replicate n .waiting) = 0 := by
  induction n with
  | zero => rfl
  | succ n ih =>
      simp only [List.replicate_succ, running_count, List.countP_cons] at *
      simp [ih]

theorem countP_set_exchange (f : TaskPhase → Bool) :
    ∀ (ts : List TaskPhase) (i : Nat) (old x : TaskPhase),
      ts[i]? = some old →
      (ts.set i x).countP f + (if f old then 1 else 0)
        = ts.countP f + (if f x then 1 else 0) := by
  intro ts
  induction ts with
  | nil => intro i old x h; simp at h
  | cons hd tl ih =>
      intro i old x h
      cases i with
      | zero =>
          have hold : hd = old := by simpa using h
          subst hold
          simp only [List.set_cons_zero, List.countP_cons]
          omega
      | succ j =>
          have hj : tl[j]? = some old := by simpa using h
          have := ih j old x hj
          simp only [List.set_cons_succ, List.countP_cons]
          omega

theorem sem_reach_invariant (K n : Nat) :
    ∀ s, SemReach K n s → s.avail + running_count s.tasks = K := by
  intro s h
  induction h with
  | init =>
      simp [sem_init, running_count_replicate_waiting]
  | step lbl s s2 hr hstep ih =>
      cases hstep with
      | start i a ts hin =>
          have hx := countP_set_exchange (fun p => p = .running) ts i
            .waiting .running hin
          simp only [running_count] at *
          simp at hx
          omega
      | finish_ok i a ts hin =>
          have hx := countP_set_exchange (fun p => p = .running) ts i
            .running .done_ok hin
          simp only [running_count] at *
          simp at hx
          omega
      | finish_raised i a ts hin =>
          have hx := countP_set_exchange (fun p => p = .running) ts i
            .running .done_raised hin
          simp only [running_count] at *
          simp at hx
          omega

/-- C6: for a pool of size `K` (probe or download semaphore): in every
reachable state at most `K` submitted blocking calls are executing; when `K`
are executing no further call can start (a start becomes possible only after
some call finishes); and a call whose blocking function raises still
releases its slot, after which any still-waiting call can start at once. -/
theorem run_blocking_with_limit_bound (K n : Nat) :
    ∀ s, SemReach K n s →
      running_count s.tasks ≤ K ∧
      (running_count s.tasks = K → ∀ i s2, ¬ SemStep (.start i) s s2) ∧
      (∀ i s2, SemStep (.finish_raised i) s s2 →
        s2.avail = s.avail + 1 ∧
        ∀ j, s2.tasks[j]? = some .waiting →
          SemStep (.start j) s2 ⟨s.avail, s2.tasks.set j .running⟩) := by
  intro s hreach
  have hinv := sem_reach_invariant K n s hreach
  refine ⟨by omega, ?_, ?_⟩
  · intro hfull i s2 hstep
    cases hstep with
    | start i a ts hin =>
        simp only at hinv hfull
        omega
  · intro i s2 hstep
    cases hstep with
    | finish_raised i a ts hin =>
        refine ⟨rfl, ?_⟩
        intro j hj
        exact SemStep.start j a (ts.set i .done_raised) hj

/-- Concrete instance of the pool bound: with `K = 1` and two submitted
calls, the reachable state where the first call is executing has at most one
call running. -/
theorem run_blocking_with_limit_bound_witness :
    running_count [TaskPhase.running, TaskPhase.waiting] ≤ 1 := by
  have hstep : SemStep (.start 0) (sem_init 1 2)
      ⟨0, [TaskPhase.running, TaskPhase.waiting]⟩ := by
    have h := SemStep.start 0 0 [TaskPhase.waiting, TaskPhase.waiting] (by rfl)
    exact h
  have hreach : SemReach 1 2 ⟨0, [TaskPhase.running, TaskPhase.waiting]⟩ :=
    SemReach.step (.start 0) (sem_init 1 2) _ SemReach.init hstep
  exact (run_blocking_with_limit_bound 1 2 _ hreach).1



/-! ### Scheduling lemmas shared by the registry claims -/

theorem get_cached_delivery_none (cache : DeliveryCache) (key : JobKey)
    (now : Nat) (h : alookup cache key = none) :
    get_cached_delivery cache key now = (none, cache) := by
  simp [get_cached_delivery, h]

theorem get_cached_delivery_live (cache : DeliveryCache) (key : JobKey)
    (now : Nat) (e : DeliveryCacheEntry) (h : alookup cache key = some e)
    (hlive : ¬ e.expires_at ≤ now) :
    get_cached_delivery cache key now = (some e, cache) := by
  simp only [get_cached_delivery, h]
  rw [if_neg hlive]

theorem get_cached_delivery_expired (cache : DeliveryCache) (key : JobKey)
    (now : Nat) (e : DeliveryCacheEntry) (h : alookup cache key = some e)
    (hexp : e.expires_at ≤ now) :
    get_cached_delivery cache key now = (none, aerase cache key) := by
  simp only [get_cached_delivery, h]
  rw [if_pos hexp]

theorem schedule_download_creates (s : BotState) (key : JobKey) (lid now : Nat)
    (hc : alookup s.delivery_cache key = none)
    (hj : alookup s.active_jobs key = none) :
    schedule_download s key lid now =
      ({ s with
          active_jobs := aset s.active_jobs key [lid]
          started_tasks := s.started_tasks ++ [key] },
        .created_job) := by
  simp [schedule_download, get_cached_delivery_none _ _ _ hc, hj]

theorem schedule_download_attaches (s : BotState) (key : JobKey) (lid now : Nat)
    (ls : List Nat)
    (hc : alookup s.delivery_cache key = none)
    (hj : alookup s.active_jobs key = some ls) :
    schedule_download s key lid now =
      ({ s with active_jobs := aset s.active_jobs key (ls ++ [lid]) },
        .attached_listener) := by
  simp [schedule_download, get_cached_delivery_none _ _ _ hc, hj]



/-! ### C4 — serving repeat requests from the delivery cache -/

/-- C4: when no job is in flight for a key and the delivery cache holds an
unexpired entry, the request is served straight from the cache — the state
is completely unchanged (no job is registered, no download task is spawned,
so no probe or download call happens) and the cached entry is re-delivered
(`bot_file` entries re-send the platform file handle, `direct_link` entries
re-send the url); an entry whose expiry has passed is popped by the read and
the request proceeds to create a job as on a miss. -/
theorem cached_delivery_short_circuit :
    (∀ (s : BotState) (key : JobKey) (lid now : Nat) (e : DeliveryCacheEntry),
        alookup s.active_jobs key = none →
        alookup s.delivery_cache key = some e →
        now < e.expires_at →
        schedule_download s key lid now = (s, .served_from_cache e)) ∧
    (∀ (e : DeliveryCacheEntry) (fid : String),
        e.mode = "bot_file" → e.file_id = some fid →
        deliver_from_cache e = .resend_file fid) ∧
    (∀ (e : DeliveryCacheEntry) (u : String),
        e.mode = "direct_link" → e.direct_url = some u →
        deliver_from_cache e = .send_link u) ∧
    (∀ (s : BotState) (key : JobKey) (lid now : Nat) (e : DeliveryCacheEntry),
        alookup s.active_jobs key = none →
        alookup s.delivery_cache key = some e →
        e.expires_at ≤ now →
        (schedule_download s key lid now).2 = .created_job ∧
        alookup (schedule_download s key lid now).1.delivery_cache key = none) := by
  refine ⟨?_, ?_, ?_, ?_⟩
  · intro s key lid now e hjob hhit hlive
    simp [schedule_download,
      get_cached_delivery_live s.delivery_cache key now e hhit (by omega)]
  · intro e fid hmode hfid
    simp [deliver_from_cache, hmode, hfid]
  · intro e u hmode hu
    have hne : e.mode ≠ "bot_file" := by rw [hmode]; decide
    simp [deliver_from_cache, deliver_from_cache_link, hmode, hne, hu]
  · intro s key lid now e hjob hhit hexp
    have hdrop := get_cached_delivery_expired s.delivery_cache key now e hhit hexp
    have hj2 : alookup s.active_jobs key = none := hjob
    constructor
    · simp [schedule_download, hdrop, hj2]
    · simp [schedule_download, hdrop, hj2, alookup_aerase_self]

/-- Concrete instance of the cache short-circuit: a live `bot_file` entry is
served untouched and re-sends its file handle; the same entry expired is
popped and a fresh job is created instead. -/
theorem cached_delivery_short_circuit_witness :
    schedule_download
        { active_jobs := [],
          delivery_cache := [((7, "https://e/v", "va", "best"),
            { mode := "bot_file", kind := some "video", file_id := some "F1",
              caption := some "t", direct_url := none, expires_at := 1000 })],
          started_tasks := [] }
        (7, "https://e/v", "va", "best") 3 999
      = ({ active_jobs := [],
           delivery_cache := [((7, "https://e/v", "va", "best"),
             { mode := "bot_file", kind := some "video", file_id := some "F1",
               caption := some "t", direct_url := none, expires_at := 1000 })],
           started_tasks := [] },
          ScheduleAction.served_from_cache
            { mode := "bot_file", kind := some "video", file_id := some "F1",
              caption := some "t", direct_url := none, expires_at := 1000 }) ∧
    deliver_from_cache
        { mode := "bot_file", kind := some "video", file_id := some "F1",
          caption := some "t", direct_url := none, expires_at := 1000 }
      = .resend_file "F1" ∧
    (schedule_download
        { active_jobs := [],
          delivery_cache := [((7, "https://e/v", "va", "best"),
            { mode := "bot_file", kind := some "video", file_id := some "F1",
              caption := some "t", direct_url := none, expires_at := 1000 })],
          started_tasks := [] }
        (7, "https://e/v", "va", "best") 3 1000).2 = .created_job := by
  refine ⟨?_, ?_, ?_⟩
  · exact cached_delivery_short_circuit.1
      { active_jobs := [],
        delivery_cache := [((7, "https://e/v", "va", "best"),
          { mode := "bot_file", kind := some "video", file_id := some "F1",
            caption := some "t", direct_url := none, expires_at := 1000 })],
        started_tasks := [] }
      (7, "https://e/v", "va", "best") 3 999
      { mode := "bot_file", kind := some "video", file_id := some "F1",
        caption := some "t", direct_url := none, expires_at := 1000 }
      rfl rfl (by decide)
  · exact cached_delivery_short_circuit.2.1
      { mode := "bot_file", kind := some "video", file_id := some "F1",
        caption := some "t", direct_url := none, expires_at := 1000 }
      "F1" rfl rfl
  · exact (cached_delivery_short_circuit.2.2.2
      { active_jobs := [],
        delivery_cache := [((7, "https://e/v", "va", "best"),
          { mode := "bot_file", kind := some "video", file_id := some "F1",
            caption := some "t", direct_url := none, expires_at := 1000 })],
        started_tasks := [] }
      (7, "https://e/v", "va", "best") 3 1000
      { mode := "bot_file", kind := some "video", file_id := some "F1",
        caption := some "t", direct_url := none, expires_at := 1000 }
      rfl rfl (by decide)).1

/-! ### C2 — the admission (rate-gate) check before job creation -/

/-- C2: `_schedule_download` performs no admission check.  With twelve jobs
already active — the `MAX_ACTIVE_JOBS` default ceiling, read back as 12 by
the config model — a thirteenth request for a fresh key is not denied: a
thirteenth job is registered and its download task is started.  Neither the
global ceiling, the per-chat ceiling, nor the user cooldown is consulted
anywhere on this path (the config getters and `set_user_last_request` /
`get_user_last_request` have no caller in the source). -/
theorem schedule_download_no_admission_check :
    get_max_active_jobs none = 12 ∧
    (schedule_download
        { active_jobs := (List.range 12).map
            (fun i => ((i, "https://e/v", "va", "best"), [i])),
          delivery_cache := [],
          started_tasks := (List.range 12).map
            (fun i => (i, "https://e/v", "va", "best")) }
        (99, "https://e/w", "va", "best") 50 1000).2 = .created_job ∧
    (schedule_download
        { active_jobs := (List.range 12).map
            (fun i => ((i, "https://e/v", "va", "best"), [i])),
          delivery_cache := [],
          started_tasks := (List.range 12).map
            (fun i => (i, "https://e/v", "va", "best")) }
        (99, "https://e/w", "va", "best") 50 1000).1.started_tasks.length = 13 ∧
    (schedule_download
        { active_jobs := (List.range 12).map
            (fun i => ((i, "https://e/v", "va", "best"), [i])),
          delivery_cache := [],
          started_tasks := (List.range 12).map
            (fun i => (i, "https://e/v", "va", "best")) }
        (99, "https://e/w", "va", "best") 50 1000).1.active_jobs.length = 13 := by
  refine ⟨rfl, by decide, by decide, by decide⟩



/-! ### C5 — link fallback for oversized artifacts -/

/-- C5: for a completed job whose artifact exists and exceeds the 48 MB
direct-transport ceiling, with the relay unavailable (bypass mode not
"userbot") or failed: when the extraction result carries a direct external
url every listener is delivered that url and the delivery cache receives a
`direct_link` entry for the job key with that url; when no url is available
every listener receives an error notification and nothing is cached.  The
artifact is cleaned up on both paths. -/
theorem deliver_result_link_fallback :
    ∀ (env : DeliverEnv) (job : DownloadJob) (result : DownloadResult)
      (fp : String) (sz : Nat),
      job.listeners ≠ [] →
      result.filepath = some fp →
      env.file_exists = true →
      result.filesize = some sz →
      TELEGRAM_UPLOAD_LIMIT_MB * 1024 * 1024 < sz →
      (env.bypass_mode = "userbot" → env.relay_ok = false) →
      (∀ u, result.direct_url = some u →
          deliver_result env job result =
            { notifications := job.listeners.map (fun l => (l, .delivered_link u)),
              cache_write := some (job.key,
                { mode := "direct_link", kind := none, file_id := none,
                  caption := result.title, direct_url := some u,
                  expires_at := env.now + CACHE_TTL_SECONDS }),
              cleaned_temp := true }) ∧
      (result.direct_url = none →
          deliver_result env job result =
            { notifications := job.listeners.map (fun l => (l, .errored)),
              cache_write := none,
              cleaned_temp := true }) := by
  intro env job result fp sz hne hfp hex hsz hbig hrelay
  have hsize_no : ¬ ((some fp : Option String).isSome = true ∧
      sz ≤ TELEGRAM_UPLOAD_LIMIT_MB * 1024 * 1024) := by
    rintro ⟨_, h⟩
    omega
  have hrelay_no : ¬ (env.bypass_mode = "userbot" ∧
      (some fp : Option String).isSome = true ∧ env.relay_ok = true) := by
    rintro ⟨h1, _, h3⟩
    rw [hrelay h1] at h3
    cases h3
  constructor
  · intro u hu
    cases hls : job.listeners with
    | nil => exact absurd hls hne
    | cons x xs =>
        simp only [deliver_result, hls, hfp, hex, hsz, hu, if_true,
          Option.getD_some]
        rw [if_neg hsize_no, if_neg hrelay_no]
        rfl
  · intro hdu
    cases hls : job.listeners with
    | nil => exact absurd hls hne
    | cons x xs =>
        simp only [deliver_result, hls, hfp, hex, hsz, hdu, if_true,
          Option.getD_some]
        rw [if_neg hsize_no, if_neg hrelay_no]
        rfl

/-- Concrete instance of the link fallback (spec scenario C): an 80 MB
artifact with the 48 MB ceiling, no relay configured, and declared direct
url "https://cdn/example" is delivered to both listeners as that direct
link and cached as a `direct_link` entry. -/
theorem deliver_result_link_fallback_witness :
    deliver_result
        { bypass_mode := "off", file_exists := true, extracted_file_id := none,
          relay_ok := false, now := 100 }
        { key := (9, "https://e/v", "va", "best"), listeners := [1, 2] }
        { ok := true, filepath := some "/tmp/a.mp4", title := some "T",
          filesize := some 83886080, direct_url := some "https://cdn/example",
          kind := some "video", error := none }
      = { notifications := [(1, .delivered_link "https://cdn/example"),
            (2, .delivered_link "https://cdn/example")],
          cache_write := some ((9, "https://e/v", "va", "best"),
            { mode := "direct_link", kind := none, file_id := none,
              caption := some "T", direct_url := some "https://cdn/example",
              expires_at := 1000 }),
          cleaned_temp := true } := by
  have h := (deliver_result_link_fallback
      { bypass_mode := "off", file_exists := true, extracted_file_id := none,
        relay_ok := false, now := 100 }
      { key := (9, "https://e/v", "va", "best"), listeners := [1, 2] }
      { ok := true, filepath := some "/tmp/a.mp4", title := some "T",
        filesize := some 83886080, direct_url := some "https://cdn/example",
        kind := some "video", error := none }
      "/tmp/a.mp4" 83886080
      (by decide) rfl rfl rfl (by decide) (fun h => absurd h (by decide))).1
      "https://cdn/example" rfl
  rw [h]
  rfl

/-! ### C8 — failed jobs: error fan-out, no caching, artifact cleanup -/

/-- C8: a job whose download raises inside `_download_with_selector` ends
with every listener notified of the error and nothing written to the
delivery cache — but the `tempfile.mkdtemp` directory created for the
download is NOT removed on this path: `_download_with_selector`'s exception
handler (downloader.py lines 774-788) contains no `shutil.rmtree`, unlike
its sibling `_download` (lines 389-392), and `_run_download_job` returns
right after `_broadcast_error` without any cleanup (handlers.py lines
674-676). -/
theorem run_download_job_failure_leaves_temp :
    (download_with_selector
        { raises := true, error_msg := "Requested format is not available",
          probe_title := some "T", probe_direct_url := some "https://cdn/x",
          probe_kind := some "video", found_filepath := none,
          found_size := none, found_title := none,
          found_kind := none }).result.ok = false ∧
    run_download_job
        { raises := true, error_msg := "Requested format is not available",
          probe_title := some "T", probe_direct_url := some "https://cdn/x",
          probe_kind := some "video", found_filepath := none,
          found_size := none, found_title := none,
          found_kind := none }
        { bypass_mode := "userbot", file_exists := false,
          extracted_file_id := none, relay_ok := false, now := 0 }
        { key := (5, "https://e/v", "va", "best"), listeners := [1, 2] }
      = { notifications := [(1, .errored), (2, .errored)],
          cache_write := none,
          temp_dir_removed := false } := by
  exact ⟨rfl, rfl⟩



/-! ### C1 — one task per key, terminal fan-out to every listener -/

theorem schedule_many_attach_all :
    ∀ (reqs : List (Nat × Nat)) (s : BotState) (key : JobKey) (ls : List Nat),
      alookup s.delivery_cache key = none →
      alookup s.active_jobs key = some ls →
      (schedule_many s key reqs).started_tasks = s.started_tasks ∧
      alookup (schedule_many s key reqs).active_jobs key
        = some (ls ++ reqs.map Prod.fst) ∧
      (schedule_many s key reqs).delivery_cache = s.delivery_cache := by
  intro reqs
  induction reqs with
  | nil =>
      intro s key ls hc hj
      refine ⟨rfl, ?_, rfl⟩
      simpa using hj
  | cons r rs ih =>
      intro s key ls hc hj
      have hstep : schedule_many s key (r :: rs)
          = schedule_many
              { s with active_jobs := aset s.active_jobs key (ls ++ [r.1]) }
              key rs := by
        show (schedule_many ((schedule_download s key r.1 r.2).1) key rs) = _
        rw [schedule_download_attaches s key r.1 r.2 ls hc hj]
      rw [hstep]
      have hres := ih { s with active_jobs := aset s.active_jobs key (ls ++ [r.1]) }
        key (ls ++ [r.1]) hc (alookup_aset_self s.active_jobs key (ls ++ [r.1]))
      refine ⟨hres.1, ?_, hres.2.2⟩
      rw [hres.2.1]
      simp

theorem run_download_job_notifies_all :
    ∀ (sel_env : SelectorEnv) (env : DeliverEnv) (job : DownloadJob),
      job.listeners ≠ [] →
      (run_download_job sel_env env job).notifications.map Prod.fst
        = job.listeners := by
  intro sel_env env job hne
  simp only [run_download_job]
  by_cases hok : (download_with_selector sel_env).result.ok = true
  · rw [if_pos hok]
    show (deliver_result env job
        (download_with_selector sel_env).result).notifications.map Prod.fst = _
    cases hls : job.listeners with
    | nil => exact absurd hls hne
    | cons x xs =>
        simp only [deliver_result, hls]
        repeat' split
        all_goals simp [List.map_map, Function.comp_def]
  · rw [if_neg hok]
    show (broadcast_error job).map Prod.fst = _
    simp [broadcast_error, List.map_map, Function.comp_def]

/-- C1: starting from a state with no job and no cached delivery for a key,
a burst of N requests for that key starts exactly one background download
task (the registry log grows by that one key), registers every requester as
a listener of the single job in arrival order, and — however the download
and delivery turn out — the finished job emits exactly one terminal
notification per attached listener, in listener order. -/
theorem single_job_single_task_fanout :
    ∀ (s0 : BotState) (key : JobKey) (reqs : List (Nat × Nat)),
      reqs ≠ [] →
      alookup s0.active_jobs key = none →
      alookup s0.delivery_cache key = none →
      (schedule_many s0 key reqs).started_tasks = s0.started_tasks ++ [key] ∧
      alookup (schedule_many s0 key reqs).active_jobs key
        = some (reqs.map Prod.fst) ∧
      (∀ (sel_env : SelectorEnv) (env : DeliverEnv) (job : DownloadJob),
        job.key = key → job.listeners = reqs.map Prod.fst →
        (run_download_job sel_env env job).notifications.map Prod.fst
          = reqs.map Prod.fst) := by
  intro s0 key reqs hne hj hc
  cases reqs with
  | nil => exact absurd rfl hne
  | cons r rs =>
      have hstep : schedule_many s0 key (r :: rs)
          = schedule_many
              { s0 with
                  active_jobs := aset s0.active_jobs key [r.1],
                  started_tasks := s0.started_tasks ++ [key] }
              key rs := by
        show (schedule_many ((schedule_download s0 key r.1 r.2).1) key rs) = _
        rw [schedule_download_creates s0 key r.1 r.2 hc hj]
      have hres := schedule_many_attach_all rs
        { s0 with
            active_jobs := aset s0.active_jobs key [r.1],
            started_tasks := s0.started_tasks ++ [key] }
        key [r.1] hc (alookup_aset_self s0.active_jobs key [r.1])
      refine ⟨?_, ?_, ?_⟩
      · rw [hstep]
        exact hres.1
      · rw [hstep, hres.2.1]
        simp
      · intro sel_env env job hkey hls
        have hne2 : job.listeners ≠ [] := by
          rw [hls]
          simp
        rw [run_download_job_notifies_all sel_env env job hne2, hls]

/-- Concrete instance of the dedup/fan-out invariant: two requests for one
key yield one started task with listeners [1, 2], and a failing download
notifies exactly listeners 1 and 2. -/
theorem single_job_single_task_fanout_witness :
    (schedule_many { active_jobs := [], delivery_cache := [], started_tasks := [] }
        (1, "https://e/v", "va", "best") [(1, 10), (2, 11)]).started_tasks
      = [(1, "https://e/v", "va", "best")] ∧
    alookup
        (schedule_many { active_jobs := [], delivery_cache := [], started_tasks := [] }
          (1, "https://e/v", "va", "best") [(1, 10), (2, 11)]).active_jobs
        (1, "https://e/v", "va", "best")
      = some [1, 2] ∧
    (run_download_job
        { raises := true, error_msg := "boom", probe_title := none,
          probe_direct_url := none, probe_kind := none, found_filepath := none,
          found_size := none, found_title := none, found_kind := none }
        { bypass_mode := "off", file_exists := false, extracted_file_id := none,
          relay_ok := false, now := 0 }
        { key := (1, "https://e/v", "va", "best"),
          listeners := [1, 2] }).notifications.map Prod.fst
      = [1, 2] := by
  have h := single_job_single_task_fanout
    { active_jobs := [], delivery_cache := [], started_tasks := [] }
    (1, "https://e/v", "va", "best") [(1, 10), (2, 11)]
    (by decide) rfl rfl
  refine ⟨?_, ?_, ?_⟩
  · simpa using h.1
  · simpa using h.2.1
  · exact h.2.2
      { raises := true, error_msg := "boom", probe_title := none,
        probe_direct_url := none, probe_kind := none, found_filepath := none,
        found_size := none, found_title := none, found_kind := none }
      { bypass_mode := "off", file_exists := false, extracted_file_id := none,
        relay_ok := false, now := 0 }
      { key := (1, "https://e/v", "va", "best"), listeners := [1, 2] }
      rfl rfl



/-! ### C7 — per-listener progress throttling -/

/-- C7 counterexample: a downloading event at 99 percent, one point past the
listener's last pushed percentage and well inside one second, is pushed by
the code (its `pct >= 99.0` clause) although the specified rule — terminal,
or two points, or one second, or unknown total and one second — says it must
not be. -/
theorem progress_throttle_counterexample :
    progress_editor_should_update "downloading" (some 99) 98 0 0 = true ∧
    claim_push_rule "downloading" (some 99) 98 0 0 = false := by
  constructor
  · simp +decide [progress_editor_should_update]
  · simp +decide [claim_push_rule]
    norm_num

/-- C7 amended: for the events the job actually emits (download/upload
events, the terminal event, and otherwise percentage-free events), an update
is pushed iff the specified rule fires or the event is a download/upload
event whose percentage is at least 99; a freshly attached listener (state
pct -5, ts 0) is pushed on the next event whenever it is a download/upload
event with a known percentage, or the monotonic clock reads at least one
second, or the event is terminal. -/
theorem progress_throttle_amended :
    (∀ (status : String) (pct : Option ℚ) (last_pct last_ts now : ℚ),
        status = "downloading" ∨ status = "uploading" ∨ status = "finished" ∨
          pct = none →
        (progress_editor_should_update status pct last_pct last_ts now = true ↔
          (claim_push_rule status pct last_pct last_ts now = true ∨
            ((status = "downloading" ∨ status = "uploading") ∧
              ∃ p, pct = some p ∧ 99 ≤ p)))) ∧
    (∀ (status : String) (p now : ℚ),
        status = "downloading" ∨ status = "uploading" → 0 ≤ p →
        progress_editor_should_update status (some p)
          PROGRESS_INIT_PCT PROGRESS_INIT_TS now = true) ∧
    (∀ (status : String) (pct : Option ℚ) (now : ℚ), 1 ≤ now →
        progress_editor_should_update status pct
          PROGRESS_INIT_PCT PROGRESS_INIT_TS now = true) ∧
    progress_editor_should_update "finished" none
      PROGRESS_INIT_PCT PROGRESS_INIT_TS 0 = true := by
  refine ⟨?_, ?_, ?_, rfl⟩
  · intro status pct lp lts now hshape
    rcases hshape with h | h | h | h
    · subst h
      cases pct with
      | none =>
          simp +decide [progress_editor_should_update, claim_push_rule]
      | some p =>
          simp +decide [progress_editor_should_update, claim_push_rule]
          tauto
    · subst h
      cases pct with
      | none =>
          simp +decide [progress_editor_should_update, claim_push_rule]
      | some p =>
          simp +decide [progress_editor_should_update, claim_push_rule]
          tauto
    · subst h
      simp +decide [progress_editor_should_update, claim_push_rule]
    · subst h
      by_cases h1 : status = "downloading" ∨ status = "uploading"
      · unfold progress_editor_should_update
        rw [if_pos h1]
        simp [claim_push_rule, h1]
        intro h2
        rcases h1 with h | h <;> rw [h] at h2 <;> exact absurd h2 (by decide)
      · unfold progress_editor_should_update
        rw [if_neg h1]
        by_cases h2 : status = "finished"
        · rw [if_pos h2]
          simp [claim_push_rule, h2]
        · rw [if_neg h2]
          simp [claim_push_rule, h1, h2]
  · intro status p now hdu hp
    have hif : status = "downloading" ∨ status = "uploading" := hdu
    unfold progress_editor_should_update
    rw [if_pos hif]
    simp only [PROGRESS_INIT_PCT, PROGRESS_INIT_TS, Bool.or_eq_true,
      decide_eq_true_eq]
    left
    right
    linarith
  · intro status pct now hnow
    unfold progress_editor_should_update
    split
    · cases pct with
      | none =>
          simp only [PROGRESS_INIT_TS, decide_eq_true_eq]
          linarith
      | some p =>
          simp only [PROGRESS_INIT_TS, PROGRESS_INIT_PCT, Bool.or_eq_true,
            decide_eq_true_eq]
          right
          linarith
    · split
      · rfl
      · simp only [PROGRESS_INIT_TS, decide_eq_true_eq]
        linarith

/-- Concrete instance of the amended throttle rule: a freshly attached
listener is pushed the very next downloading event carrying a percentage. -/
theorem progress_throttle_amended_witness :
    progress_editor_should_update "downloading" (some 0)
      PROGRESS_INIT_PCT PROGRESS_INIT_TS 0 = true := by
  exact progress_throttle_amended.2.1 "downloading" 0 0 (Or.inl rfl) le_rfl


end YtBot
